import Mathlib

/-!
Shallow embedding of the splitflap departure-board normalization core
(`main.go`: `ApiV3Response`, `ApiV3Error`, `ParseError`, `Departure`,
`ExtractDepartures`, `MbtaServiceImpl.ListDepartures`), together with the
Go standard-library pieces it relies on (`time.Parse` with the RFC3339
layout and `time.Format` with the `3:04PM` layout), and proofs of the
specification claims about them.
-/

/-- One primary record of the API response (`ApiV3Response.Data` element).
Field paths in the JSON: `attributes.departure_time`, `attributes.status`,
`relationships.route.data.id`, `relationships.stop.data.id`,
`relationships.trip.data.id`, `id`. -/
structure DataRecord where
  departureTime : String
  status : String
  routeId : String
  stopId : String
  tripId : String
  id : String
deriving DecidableEq

/-- One element of the heterogeneous `included` side-array
(`ApiV3Response.Included` element): merged attributes `headsign`,
`platform_code` and the numeric route `type`, plus the discriminating
entity `type` tag and the entity `id`. -/
structure IncludedEntity where
  headsign : String
  platformCode : String
  routeType : Int
  type : String
  id : String
deriving DecidableEq

/-- The decoded API payload: primary records plus the included side-array. -/
structure ApiV3Response where
  data : List DataRecord
  included : List IncludedEntity
deriving DecidableEq

/-- One entry of the upstream error envelope (`ApiV3Error.Errors` element):
`status`, `source.parameter`, `detail`, `code`. -/
structure ApiV3ErrorEntry where
  status : String
  sourceParameter : String
  detail : String
  code : String
deriving DecidableEq

/-- The upstream error envelope (`ApiV3Error`). -/
structure ApiV3Error where
  errors : List ApiV3ErrorEntry
deriving DecidableEq

/-- Aggregated per-row parse failures (`ParseError`).  In Go the entries are
`error` values created by `fmt.Errorf`; each is fully described by its
message string, so we store the messages. -/
structure ParseError where
  errors : List String
deriving DecidableEq

/-- One output row of the departure board (`Departure`). -/
structure Departure where
  timeLabel : String
  destination : String
  track : String
  status : String
deriving DecidableEq

/-! ### Go `time.Parse` with the RFC3339 layout, and `Format("3:04PM")` -/

/-- Numeric value of a decimal digit character; `none` on a non-digit. -/
def digitVal (c : Char) : Option Nat :=
  if c.isDigit then some (c.toNat - 48) else none

/-- Read exactly two decimal digits. -/
def parse2 : List Char → Option (Nat × List Char)
  | c1 :: c2 :: rest =>
    match digitVal c1, digitVal c2 with
    | some a, some b => some (10 * a + b, rest)
    | _, _ => none
  | _ => none

/-- Read exactly four decimal digits (the year field). -/
def parse4 (cs : List Char) : Option (Nat × List Char) :=
  match parse2 cs with
  | some (hi, rest) =>
    match parse2 rest with
    | some (lo, rest2) => some (100 * hi + lo, rest2)
    | none => none
  | none => none

/-- Consume one expected literal character. -/
def expectChar (c : Char) : List Char → Option (List Char)
  | x :: rest => if x = c then some rest else none
  | [] => none

/-- Drop a leading run of decimal digits. -/
def dropDigits : List Char → List Char
  | c :: rest => if c.isDigit then dropDigits rest else c :: rest
  | [] => []

/-- Optional fractional second: Go's parser accepts `.` followed by at least
one digit after the seconds field, and rejects a bare `.`. -/
def parseFraction : List Char → Option (List Char)
  | '.' :: c :: rest => if c.isDigit then some (dropDigits (c :: rest)) else none
  | ['.'] => none
  | cs => some cs

/-- Numeric UTC offset in minutes east.  The RFC3339 layout's zone is either
the literal `Z` or `±hh:mm`; Go does not range-check the offset fields. -/
def parseOffset : List Char → Option (Int × List Char)
  | 'Z' :: rest => some (0, rest)
  | c :: rest =>
    if c = '+' ∨ c = '-' then
      match parse2 rest with
      | some (oh, rest2) =>
        match expectChar ':' rest2 with
        | some rest3 =>
          match parse2 rest3 with
          | some (om, rest4) =>
            let mins : Int := Int.ofNat (oh * 60 + om)
            some (if c = '-' then -mins else mins, rest4)
          | none => none
        | none => none
      | none => none
    else none
  | [] => none

/-- The wall-clock components Go's `time.Parse` extracts from an RFC3339
string.  `Format` renders the parsed wall clock in its parsed offset, so the
components are kept exactly as written in the input. -/
structure GoTime where
  year : Nat
  month : Nat
  day : Nat
  hour : Nat
  minute : Nat
  second : Nat
  offsetMinutes : Int
deriving DecidableEq

/-- Gregorian leap-year rule used by Go's day-of-month validation. -/
def isLeap (y : Nat) : Bool :=
  (y % 4 = 0 && y % 100 ≠ 0) || y % 400 = 0

/-- Number of days in a month, as used by Go's `Parse` range validation. -/
def daysIn (m y : Nat) : Nat :=
  if m = 2 then (if isLeap y then 29 else 28)
  else if m = 4 ∨ m = 6 ∨ m = 9 ∨ m = 11 then 30
  else 31

/-- Go's `time.Parse(time.RFC3339, s)`: the layout
`2006-01-02T15:04:05Z07:00` with an optional fractional second, requiring
the whole input to be consumed and the date/clock fields to be in range.
Returns `none` exactly when Go returns a non-nil error. -/
def timeParseRFC3339 (s : String) : Option GoTime := do
  let (year, r1) ← parse4 s.toList
  let r2 ← expectChar '-' r1
  let (month, r3) ← parse2 r2
  let r4 ← expectChar '-' r3
  let (day, r5) ← parse2 r4
  let r6 ← expectChar 'T' r5
  let (hour, r7) ← parse2 r6
  let r8 ← expectChar ':' r7
  let (minute, r9) ← parse2 r8
  let r10 ← expectChar ':' r9
  let (second, r11) ← parse2 r10
  let r12 ← parseFraction r11
  let (offset, r13) ← parseOffset r12
  if r13 = [] ∧ 1 ≤ month ∧ month ≤ 12 ∧ 1 ≤ day ∧ day ≤ daysIn month year
      ∧ hour ≤ 23 ∧ minute ≤ 59 ∧ second ≤ 59 then
    some ⟨year, month, day, hour, minute, second, offset⟩
  else
    none

/-- Two-digit zero-padded rendering (the `04` minute field). -/
def pad2 (n : Nat) : String :=
  if n < 10 then "0" ++ toString n else toString n

/-- Go's `t.Format("3:04PM")`: 12-hour clock hour with no leading zero,
zero-padded minute, uppercase meridiem. -/
def formatKitchen (t : GoTime) : String :=
  let h12 := t.hour % 12
  let h12 := if h12 = 0 then 12 else h12
  toString h12 ++ ":" ++ pad2 t.minute ++ (if t.hour < 12 then "AM" else "PM")

/-! ### Cross-reference indexes (`ExtractDepartures`, first loop) -/

/-- The three lookups built from the `included` side-array.  Go's
`map[string]string` is modelled as an association list where a fresh
assignment is prepended, and lookup takes the most recent binding, so
repeated assignment to one key overwrites, as in Go. -/
structure Indexes where
  trackIndex : List (String × String)
  routeIndex : List String
  destinationIndex : List (String × String)
deriving DecidableEq

/-- Go map assignment `m[k] = v`. -/
def mapInsert (m : List (String × String)) (k v : String) : List (String × String) :=
  (k, v) :: m

/-- Go map read `m[k]`: the most recent binding, or the zero value `""`
when the key is absent. -/
def mapLookup (m : List (String × String)) (k : String) : String :=
  match m.find? (fun p => p.1 == k) with
  | some p => p.2
  | none => ""

/-- The body of the indexing loop: three independent `if` statements, one
per entity kind.  A `route` entry is indexed only when its numeric type is
the commuter-rail code `2`. -/
def indexStep (idx : Indexes) (entry : IncludedEntity) : Indexes :=
  let idx1 :=
    if entry.type = "route" ∧ entry.routeType = 2 then
      { idx with routeIndex := entry.id :: idx.routeIndex }
    else idx
  let idx2 :=
    if entry.type = "stop" then
      { idx1 with trackIndex := mapInsert idx1.trackIndex entry.id entry.platformCode }
    else idx1
  if entry.type = "trip" then
    { idx2 with destinationIndex := mapInsert idx2.destinationIndex entry.id entry.headsign }
  else idx2

/-- The single pass over `apiResponse.Included` building all three indexes. -/
def buildIndexes (included : List IncludedEntity) : Indexes :=
  included.foldl indexStep ⟨[], [], []⟩

/-! ### Row construction (`ExtractDepartures`, second loop) -/

/-- The eligibility predicate of the extraction loop: the two nested `if`
statements requiring a non-empty departure time, a non-empty status, and
route-id membership in the commuter-rail index. -/
def eligible (idx : Indexes) (r : DataRecord) : Bool :=
  r.departureTime != "" && r.status != "" && idx.routeIndex.contains r.routeId

/-- The body of the extraction loop for one eligible record: destination
lookup, time parse/format (with the `(Parse Error) <raw>` fallback label
and the error it appends), verbatim status, and track lookup with the
`"TBD"` default.  Returns the row together with the optional parse-error
message appended for it. -/
def mkDeparture (idx : Indexes) (result : DataRecord) : Departure × Option String :=
  let destination := mapLookup idx.destinationIndex result.tripId
  let timeResult :=
    match timeParseRFC3339 result.departureTime with
    | some t => (formatKitchen t, (none : Option String))
    | none =>
      let msg := "(Parse Error) " ++ result.departureTime
      (msg, some msg)
  let track0 := mapLookup idx.trackIndex result.stopId
  let track := if track0 = "" then "TBD" else track0
  (⟨timeResult.1, destination, track, result.status⟩, timeResult.2)

/-- The extraction loop over `apiResponse.Data`, accumulating rows and
parse-error messages in input order. -/
def extractLoop (idx : Indexes) : List DataRecord → List Departure × List String
  | [] => ([], [])
  | r :: rest =>
    let tail := extractLoop idx rest
    if eligible idx r then
      let d := mkDeparture idx r
      (d.1 :: tail.1, d.2.elim tail.2 (fun e => e :: tail.2))
    else tail

/-- `ExtractDepartures`: build the indexes, build the rows, and return the
rows together with the aggregated `ParseError` when at least one row's
timestamp failed to parse (`nil` error otherwise, modelled as `none`). -/
def ExtractDepartures (apiResponse : ApiV3Response) : List Departure × Option ParseError :=
  let idx := buildIndexes apiResponse.included
  let res := extractLoop idx apiResponse.data
  (res.1, if res.2.length > 0 then some ⟨res.2⟩ else none)

/-! ### Service facade (`MbtaServiceImpl.ListDepartures`) and error rendering -/

/-- Go's `%+v` rendering of one error-envelope entry struct. -/
def plusVEntry (x : ApiV3ErrorEntry) : String :=
  "\x7bStatus:" ++ x.status ++ " Source:\x7bParameter:" ++ x.sourceParameter
    ++ "\x7d Detail:" ++ x.detail ++ " Code:" ++ x.code ++ "\x7d"

/-- Go's `%+v` rendering of the error-entry slice. -/
def plusVEntries (xs : List ApiV3ErrorEntry) : String :=
  "[" ++ String.intercalate " " (xs.map plusVEntry) ++ "]"

/-- `ApiV3Error.Error()`: a single-entry envelope renders
`MBTA API error: <detail>`; anything else renders the raw entry slice. -/
def ApiV3Error.message (e : ApiV3Error) : String :=
  match e.errors with
  | [entry] => "MBTA API error: " ++ entry.detail
  | _ => "MBTA API error: " ++ plusVEntries e.errors

/-- `ParseError.Error()`: `Parse error: <%+v of the error slice>`; the
`error` values render through their messages. -/
def ParseError.message (e : ParseError) : String :=
  "Parse error: [" ++ String.intercalate " " e.errors ++ "]"

/-- The `error` values `ListDepartures` can return: the transport error
from `sling.Receive`, the upstream `ApiV3Error` envelope, or the
aggregated `ParseError` from extraction. -/
inductive GoError where
  | transport (msg : String)
  | api (e : ApiV3Error)
  | parse (e : ParseError)
deriving DecidableEq

/-- The message carried by a `GoError` (its `Error()` rendering). -/
def GoError.message : GoError → String
  | .transport msg => msg
  | .api e => e.message
  | .parse e => e.message

/-- `MbtaServiceImpl.ListDepartures` after the response has been received:
`transportErr` is the (message of the) non-nil error from `sling.Receive`,
if any.  The Go code sets `err = apiError` when the transport succeeded, so
it proceeds to extraction exactly when the transport succeeded and the
decoded envelope holds no entries; otherwise it returns `nil` rows and the
error.  `none` in the first component models the `nil` slice. -/
def ListDepartures (transportErr : Option String) (apiResponse : ApiV3Response)
    (apiError : ApiV3Error) : Option (List Departure) × Option GoError :=
  match transportErr with
  | some msg => (none, some (GoError.transport msg))
  | none =>
    if apiError.errors.length = 0 then
      let res := ExtractDepartures apiResponse
      (some res.1, res.2.map GoError.parse)
    else
      (none, some (GoError.api apiError))

/-! ### Structural lemmas about the extraction loop -/

/-- The per-record parse-error message is present exactly when the
timestamp fails to parse. -/
theorem mkDeparture_snd (idx : Indexes) (r : DataRecord) :
    (mkDeparture idx r).2 =
      if timeParseRFC3339 r.departureTime = none
      then some ("(Parse Error) " ++ r.departureTime) else none := by
  unfold mkDeparture
  cases h : timeParseRFC3339 r.departureTime <;> simp [h]

/-- On a parse failure the row's time label is the error rendering. -/
theorem mkDeparture_timeLabel_of_fail (idx : Indexes) (r : DataRecord)
    (h : timeParseRFC3339 r.departureTime = none) :
    (mkDeparture idx r).1.timeLabel = "(Parse Error) " ++ r.departureTime := by
  unfold mkDeparture
  simp [h]

/-- The row's track field is the looked-up platform code with the `"TBD"`
default for an empty lookup. -/
theorem mkDeparture_track (idx : Indexes) (r : DataRecord) :
    (mkDeparture idx r).1.track =
      (if mapLookup idx.trackIndex r.stopId = "" then "TBD"
       else mapLookup idx.trackIndex r.stopId) := by
  unfold mkDeparture
  cases h : timeParseRFC3339 r.departureTime <;> simp [h]

/-- The row's status field is the record's status, verbatim. -/
theorem mkDeparture_status (idx : Indexes) (r : DataRecord) :
    (mkDeparture idx r).1.status = r.status := by
  unfold mkDeparture
  cases h : timeParseRFC3339 r.departureTime <;> simp [h]

/-- The extraction loop is a stable filter-and-transform: its rows are the
transform mapped over the eligible records in input order, and its error
list collects the per-record parse errors of those records in order. -/
theorem extractLoop_eq (idx : Indexes) (rs : List DataRecord) :
    extractLoop idx rs =
      ((rs.filter (eligible idx)).map (fun r => (mkDeparture idx r).1),
       (rs.filter (eligible idx)).filterMap (fun r => (mkDeparture idx r).2)) := by
  induction rs with
  | nil => rfl
  | cons r rest ih =>
    cases h : eligible idx r with
    | false => simp [extractLoop, ih, List.filter_cons, h]
    | true =>
      cases hm : (mkDeparture idx r).2 with
      | none => simp [extractLoop, ih, List.filter_cons, List.filterMap_cons, h, hm]
      | some e => simp [extractLoop, ih, List.filter_cons, List.filterMap_cons, h, hm]

/-- The rows returned by `ExtractDepartures`, in filter-map form. -/
theorem ExtractDepartures_fst (resp : ApiV3Response) :
    (ExtractDepartures resp).1 =
      (resp.data.filter (eligible (buildIndexes resp.included))).map
        (fun r => (mkDeparture (buildIndexes resp.included) r).1) := by
  simp [ExtractDepartures, extractLoop_eq]

/-- The aggregate error returned by `ExtractDepartures`, in filter-map
form. -/
theorem ExtractDepartures_snd (resp : ApiV3Response) :
    (ExtractDepartures resp).2 =
      (if ((resp.data.filter (eligible (buildIndexes resp.included))).filterMap
            (fun r => (mkDeparture (buildIndexes resp.included) r).2)).length > 0
       then some ⟨(resp.data.filter (eligible (buildIndexes resp.included))).filterMap
            (fun r => (mkDeparture (buildIndexes resp.included) r).2)⟩
       else none) := by
  simp [ExtractDepartures, extractLoop_eq]

/-! ### Structural lemmas about the index builder -/

/-- Only the `route` branch touches the commuter-rail set. -/
theorem indexStep_routeIndex (idx : Indexes) (e : IncludedEntity) :
    (indexStep idx e).routeIndex =
      if e.type = "route" ∧ e.routeType = 2 then e.id :: idx.routeIndex
      else idx.routeIndex := by
  unfold indexStep
  split_ifs <;> rfl

/-- Only the `stop` branch touches the track index. -/
theorem indexStep_trackIndex (idx : Indexes) (e : IncludedEntity) :
    (indexStep idx e).trackIndex =
      if e.type = "stop" then mapInsert idx.trackIndex e.id e.platformCode
      else idx.trackIndex := by
  unfold indexStep
  split_ifs <;> rfl

/-- Only the `trip` branch touches the destination index. -/
theorem indexStep_destinationIndex (idx : Indexes) (e : IncludedEntity) :
    (indexStep idx e).destinationIndex =
      if e.type = "trip" then mapInsert idx.destinationIndex e.id e.headsign
      else idx.destinationIndex := by
  unfold indexStep
  split_ifs <;> rfl

/-- An included entity of any other kind leaves all three indexes alone. -/
theorem indexStep_other (idx : Indexes) (e : IncludedEntity)
    (h1 : e.type ≠ "route") (h2 : e.type ≠ "stop") (h3 : e.type ≠ "trip") :
    indexStep idx e = idx := by
  unfold indexStep
  simp [h1, h2, h3]

/-- Membership effect of one indexing step on the commuter-rail set. -/
theorem indexStep_routeIndex_contains (idx : Indexes) (e : IncludedEntity) (r : String) :
    (indexStep idx e).routeIndex.contains r = true ↔
      ((e.type = "route" ∧ e.routeType = 2 ∧ e.id = r) ∨
        idx.routeIndex.contains r = true) := by
  rw [indexStep_routeIndex]
  by_cases h : e.type = "route" ∧ e.routeType = 2 <;>
    simp [h, List.contains_cons] <;> tauto

/-- An id is in the commuter-rail set iff some included entity is a route
of numeric type `2` with that id (generalized over the accumulator). -/
theorem routeIndex_foldl (l : List IncludedEntity) (idx0 : Indexes) (r : String) :
    ((l.foldl indexStep idx0).routeIndex.contains r = true) ↔
      (idx0.routeIndex.contains r = true ∨
        ∃ e ∈ l, e.type = "route" ∧ e.routeType = 2 ∧ e.id = r) := by
  induction l generalizing idx0 with
  | nil => simp
  | cons e rest ih =>
    rw [List.foldl_cons, ih, indexStep_routeIndex_contains]
    simp only [List.mem_cons]
    constructor
    · rintro ((h | h) | ⟨e2, he2, h⟩)
      · exact Or.inr ⟨e, Or.inl rfl, h⟩
      · exact Or.inl h
      · exact Or.inr ⟨e2, Or.inr he2, h⟩
    · rintro (h | ⟨e2, (rfl | he2), h⟩)
      · exact Or.inl (Or.inr h)
      · exact Or.inl (Or.inl h)
      · exact Or.inr ⟨e2, he2, h⟩

/-- The platform code of the last `stop` entity with a given id, if any. -/
def lastStopPlatform (l : List IncludedEntity) (s : String) : Option String :=
  (l.reverse.find? (fun e => e.type == "stop" && e.id == s)).map
    (fun e => e.platformCode)

/-- The headsign of the last `trip` entity with a given id, if any. -/
def lastTripHeadsign (l : List IncludedEntity) (s : String) : Option String :=
  (l.reverse.find? (fun e => e.type == "trip" && e.id == s)).map
    (fun e => e.headsign)

/-- A track-index lookup returns the platform code of the last `stop`
entity with the looked-up id, falling back to the accumulator. -/
theorem trackIndex_foldl (l : List IncludedEntity) (idx0 : Indexes) (s : String) :
    mapLookup (l.foldl indexStep idx0).trackIndex s =
      (lastStopPlatform l s).getD (mapLookup idx0.trackIndex s) := by
  induction l generalizing idx0 with
  | nil => simp [lastStopPlatform]
  | cons e rest ih =>
    rw [List.foldl_cons, ih]
    have hhead : mapLookup (indexStep idx0 e).trackIndex s =
        (if e.type == "stop" && e.id == s then e.platformCode
         else mapLookup idx0.trackIndex s) := by
      rw [indexStep_trackIndex]
      by_cases h1 : e.type = "stop"
      · by_cases h2 : e.id = s <;>
          simp [mapInsert, mapLookup, List.find?_cons, h1, h2]
      · simp [h1]
    rw [hhead]
    unfold lastStopPlatform
    rw [List.reverse_cons, List.find?_append]
    cases hfind : (rest.reverse.find? fun e => e.type == "stop" && e.id == s) with
    | some v => simp [lastStopPlatform, hfind, Option.or]
    | none =>
      by_cases hp : (e.type == "stop" && e.id == s) = true <;>
        simp [lastStopPlatform, hfind, Option.or, List.find?_cons, hp]

/-- A destination-index lookup returns the headsign of the last `trip`
entity with the looked-up id, falling back to the accumulator. -/
theorem destinationIndex_foldl (l : List IncludedEntity) (idx0 : Indexes) (s : String) :
    mapLookup (l.foldl indexStep idx0).destinationIndex s =
      (lastTripHeadsign l s).getD (mapLookup idx0.destinationIndex s) := by
  induction l generalizing idx0 with
  | nil => simp [lastTripHeadsign]
  | cons e rest ih =>
    rw [List.foldl_cons, ih]
    have hhead : mapLookup (indexStep idx0 e).destinationIndex s =
        (if e.type == "trip" && e.id == s then e.headsign
         else mapLookup idx0.destinationIndex s) := by
      rw [indexStep_destinationIndex]
      by_cases h1 : e.type = "trip"
      · by_cases h2 : e.id = s <;>
          simp [mapInsert, mapLookup, List.find?_cons, h1, h2]
      · simp [h1]
    rw [hhead]
    unfold lastTripHeadsign
    rw [List.reverse_cons, List.find?_append]
    cases hfind : (rest.reverse.find? fun e => e.type == "trip" && e.id == s) with
    | some v => simp [lastTripHeadsign, hfind, Option.or]
    | none =>
      by_cases hp : (e.type == "trip" && e.id == s) = true <;>
        simp [lastTripHeadsign, hfind, Option.or, List.find?_cons, hp]

/-! ### Further helper lemmas -/

/-- Unfolding of the eligibility predicate into its three conjuncts. -/
theorem eligible_iff (idx : Indexes) (r : DataRecord) :
    eligible idx r = true ↔
      (r.departureTime ≠ "" ∧ r.status ≠ "" ∧
        idx.routeIndex.contains r.routeId = true) := by
  unfold eligible
  simp [Bool.and_eq_true, bne_iff_ne, and_assoc]

/-- Every output row comes from some eligible input record via the loop
body. -/
theorem mem_rows (resp : ApiV3Response) (d : Departure)
    (hd : d ∈ (ExtractDepartures resp).1) :
    ∃ r ∈ resp.data, eligible (buildIndexes resp.included) r = true ∧
      d = (mkDeparture (buildIndexes resp.included) r).1 := by
  rw [ExtractDepartures_fst] at hd
  obtain ⟨r, hr, hmk⟩ := List.mem_map.mp hd
  obtain ⟨hrm, helig⟩ := List.mem_filter.mp hr
  exact ⟨r, hrm, helig, hmk.symm⟩

/-- A `filterMap` whose function is an `if`-guarded `some` is a `map` over
a `filter`. -/
theorem filterMap_if_eq_map_filter {α β : Type} (p : α → Bool) (g : α → β)
    (l : List α) :
    l.filterMap (fun a => if p a then some (g a) else none) =
      (l.filter p).map g := by
  induction l with
  | nil => rfl
  | cons a t ih =>
    cases h : p a <;> simp [List.filterMap_cons, List.filter_cons, h, ih]

/-! ### Concrete fixtures -/

/-- A commuter-rail route entity (numeric type `2`). -/
def crRoute : IncludedEntity := ⟨"", "", 2, "route", "CR-Newburyport"⟩

/-- A trip entity carrying the headsign `Newburyport`. -/
def tripNewburyport : IncludedEntity := ⟨"Newburyport", "", 0, "trip", "T1"⟩

/-- A stop entity with an empty platform code. -/
def stopNoTrack : IncludedEntity := ⟨"", "", 0, "stop", "S1"⟩

/-- A fully well-formed primary record on the commuter-rail route. -/
def goodRecord : DataRecord :=
  ⟨"2023-01-01T16:30:00-05:00", "On time", "CR-Newburyport", "S1", "T1", "p1"⟩

/-- A payload holding the one well-formed record and its three included
entities. -/
def sampleResponse : ApiV3Response :=
  ⟨[goodRecord], [crRoute, tripNewburyport, stopNoTrack]⟩

/-- The row the sample payload produces. -/
def sampleRow : Departure := ⟨"4:30PM", "Newburyport", "TBD", "On time"⟩

/-! ### Claim theorems -/

/-- C8: on the single record
`{time:"2023-01-01T16:30:00-05:00", status:"On time", route:R1, trip:T1,
stop:S1}` with `R1` in the commuter-rail set, `T1 ↦ "Newburyport"` and
`S1 ↦ ""`, the extractor returns exactly one row
`{TimeLabel:"4:30PM", Destination:"Newburyport", Track:"TBD",
Status:"On time"}` and no aggregate error: the timestamp parses as
ISO-8601 with UTC offset and is formatted on a 12-hour clock with no
leading zero and uppercase meridiem. -/
theorem extract_sample_response :
    ExtractDepartures sampleResponse = ([sampleRow], none) := by decide

/-- C7: the output rows are exactly the per-record transform mapped over
the eligible records in input order - the extractor is a stable
filter-and-transform and performs no reordering. -/
theorem extract_preserves_input_order (resp : ApiV3Response) :
    (ExtractDepartures resp).1 =
      (resp.data.filter (eligible (buildIndexes resp.included))).map
        (fun r => (mkDeparture (buildIndexes resp.included) r).1) :=
  ExtractDepartures_fst resp

/-- C4: every output row comes from a record that passed the eligibility
filter, which requires a non-empty departure time and commuter-rail
route-id membership; a record with an empty departure time is never
eligible, and neither is a record whose route id is absent from the
commuter-rail index. -/
theorem eligibility_filter_spec (resp : ApiV3Response) :
    (∀ d ∈ (ExtractDepartures resp).1, ∃ r ∈ resp.data,
        eligible (buildIndexes resp.included) r = true ∧
        r.departureTime ≠ "" ∧
        (buildIndexes resp.included).routeIndex.contains r.routeId = true ∧
        d = (mkDeparture (buildIndexes resp.included) r).1) ∧
    (∀ r : DataRecord, r.departureTime = "" →
        eligible (buildIndexes resp.included) r = false) ∧
    (∀ r : DataRecord,
        (buildIndexes resp.included).routeIndex.contains r.routeId = false →
        eligible (buildIndexes resp.included) r = false) := by
  refine ⟨?_, ?_, ?_⟩
  · intro d hd
    obtain ⟨r, hrm, helig, hmk⟩ := mem_rows resp d hd
    obtain ⟨h1, _, h3⟩ := (eligible_iff _ r).mp helig
    exact ⟨r, hrm, helig, h1, h3, hmk⟩
  · intro r h
    unfold eligible
    simp [h]
  · intro r h
    unfold eligible
    simp at h ⊢
    intro _ _
    exact h

/-- Witness for C4 at concrete inputs. -/
theorem eligibility_filter_spec_witness :
    (∃ r ∈ sampleResponse.data,
        eligible (buildIndexes sampleResponse.included) r = true ∧
        r.departureTime ≠ "" ∧
        (buildIndexes sampleResponse.included).routeIndex.contains r.routeId = true ∧
        sampleRow = (mkDeparture (buildIndexes sampleResponse.included) r).1) ∧
    eligible (buildIndexes sampleResponse.included)
      ⟨"", "On time", "CR-Newburyport", "S1", "T1", "p2"⟩ = false ∧
    eligible (buildIndexes sampleResponse.included)
      ⟨"2023-01-01T16:30:00-05:00", "On time", "Green-B", "S1", "T1", "p2"⟩ = false := by
  obtain ⟨h1, h2, h3⟩ := eligibility_filter_spec sampleResponse
  exact ⟨h1 sampleRow (by decide), h2 _ rfl, h3 _ (by decide)⟩

/-- A primary record whose only defect is an empty status. -/
def emptyStatusRecord : DataRecord :=
  ⟨"2023-01-01T16:30:00-05:00", "", "CR-Newburyport", "S1", "T1", "p4"⟩

/-- A payload holding the empty-status record and its included entities. -/
def emptyStatusResponse : ApiV3Response :=
  ⟨[emptyStatusRecord], [crRoute, tripNewburyport, stopNoTrack]⟩

/-- C1 counterexample: a primary record with an empty status that passes
every other filter - a non-empty, parseable departure timestamp and a
route id in the commuter-rail set - produces no output row at all, so no
output row's status resolves to `"Delayed"` (and no output row with empty
status exists either): the extractor drops empty-status records instead
of inferring a delay. -/
theorem delay_inference_cex :
    emptyStatusRecord.status = "" ∧
    emptyStatusRecord.departureTime ≠ "" ∧
    (timeParseRFC3339 emptyStatusRecord.departureTime).isSome = true ∧
    (buildIndexes emptyStatusResponse.included).routeIndex.contains
      emptyStatusRecord.routeId = true ∧
    ExtractDepartures emptyStatusResponse = ([], none) ∧
    ¬ (∃ d ∈ (ExtractDepartures emptyStatusResponse).1, d.status = "Delayed") := by
  decide

/-- C1 amended: a primary record with an empty status never contributes an
output row (the eligibility filter also requires a non-empty status), and
the extractor never synthesizes a status: every output row's status is
some record's own non-empty status, so a row reads `"Delayed"` only when a
record's raw status is `"Delayed"`. -/
theorem no_delayed_status_synthesis (resp : ApiV3Response) (d : Departure)
    (hd : d ∈ (ExtractDepartures resp).1) :
    (∀ r ∈ resp.data, r.status = "" →
        eligible (buildIndexes resp.included) r = false) ∧
    (∃ r ∈ resp.data, r.status ≠ "" ∧ d.status = r.status) ∧
    (d.status = "Delayed" → ∃ r ∈ resp.data, r.status = "Delayed") := by
  have hmain : ∃ r ∈ resp.data, r.status ≠ "" ∧ d.status = r.status := by
    obtain ⟨r, hrm, helig, hmk⟩ := mem_rows resp d hd
    obtain ⟨_, h2, _⟩ := (eligible_iff _ r).mp helig
    refine ⟨r, hrm, h2, ?_⟩
    rw [hmk, mkDeparture_status]
  refine ⟨?_, hmain, ?_⟩
  · intro r _ h
    unfold eligible
    simp [h]
  · intro hdel
    obtain ⟨r, hrm, _, hst⟩ := hmain
    exact ⟨r, hrm, by rw [← hst, hdel]⟩

/-- Witness for the amended C1 at a concrete input. -/
theorem no_delayed_status_synthesis_witness :
    (∀ r ∈ sampleResponse.data, r.status = "" →
        eligible (buildIndexes sampleResponse.included) r = false) ∧
    (∃ r ∈ sampleResponse.data, r.status ≠ "" ∧ sampleRow.status = r.status) ∧
    (sampleRow.status = "Delayed" →
        ∃ r ∈ sampleResponse.data, r.status = "Delayed") :=
  no_delayed_status_synthesis sampleResponse sampleRow (by decide)

/-- A stop entity whose platform code is the literal string `TBD`. -/
def tbdStop : IncludedEntity := ⟨"", "TBD", 0, "stop", "S2"⟩

/-- A well-formed record boarding at the `TBD`-platform stop. -/
def tbdRecord : DataRecord :=
  ⟨"2023-01-01T16:30:00-05:00", "On time", "CR-Newburyport", "S2", "T1", "p3"⟩

/-- A payload exercising the `TBD` platform code. -/
def tbdResponse : ApiV3Response :=
  ⟨[tbdRecord], [crRoute, tripNewburyport, tbdStop]⟩

/-- C5 counterexample: when a stop's platform code is the literal string
`"TBD"`, the produced row's track equals `"TBD"` while the stop-id lookup
is non-empty, so "Track equals TBD if and only if the lookup yields the
empty string" fails in the only-if direction at this input. -/
theorem track_tbd_iff_cex :
    (ExtractDepartures tbdResponse).1 =
      [⟨"4:30PM", "Newburyport", "TBD", "On time"⟩] ∧
    mapLookup (buildIndexes tbdResponse.included).trackIndex
      tbdRecord.stopId = "TBD" ∧
    mapLookup (buildIndexes tbdResponse.included).trackIndex
      tbdRecord.stopId ≠ "" ∧
    ¬ (∀ d ∈ (ExtractDepartures tbdResponse).1,
        (d.track = "TBD" ↔
          mapLookup (buildIndexes tbdResponse.included).trackIndex
            tbdRecord.stopId = "")) := by
  decide

/-- C5 amended: for every produced row, an empty stop-id lookup yields the
sentinel track `"TBD"`, and a non-empty lookup is copied verbatim into the
track field; hence the track equals `"TBD"` exactly when the lookup is
empty or is itself the string `"TBD"`. -/
theorem track_resolution (resp : ApiV3Response) (d : Departure)
    (hd : d ∈ (ExtractDepartures resp).1) :
    ∃ r ∈ resp.data, eligible (buildIndexes resp.included) r = true ∧
      d = (mkDeparture (buildIndexes resp.included) r).1 ∧
      (mapLookup (buildIndexes resp.included).trackIndex r.stopId = "" →
        d.track = "TBD") ∧
      (mapLookup (buildIndexes resp.included).trackIndex r.stopId ≠ "" →
        d.track = mapLookup (buildIndexes resp.included).trackIndex r.stopId) ∧
      (d.track = "TBD" ↔
        (mapLookup (buildIndexes resp.included).trackIndex r.stopId = "" ∨
         mapLookup (buildIndexes resp.included).trackIndex r.stopId = "TBD")) := by
  obtain ⟨r, hrm, helig, hmk⟩ := mem_rows resp d hd
  have htr := mkDeparture_track (buildIndexes resp.included) r
  refine ⟨r, hrm, helig, hmk, ?_, ?_, ?_⟩
  · intro h
    rw [hmk, htr]
    simp [h]
  · intro h
    rw [hmk, htr]
    simp [h]
  · rw [hmk, htr]
    by_cases h : mapLookup (buildIndexes resp.included).trackIndex r.stopId = "" <;>
      simp [h]

/-- Witness for the amended C5 at a concrete input. -/
theorem track_resolution_witness :
    ∃ r ∈ sampleResponse.data,
      eligible (buildIndexes sampleResponse.included) r = true ∧
      sampleRow = (mkDeparture (buildIndexes sampleResponse.included) r).1 ∧
      (mapLookup (buildIndexes sampleResponse.included).trackIndex r.stopId = "" →
        sampleRow.track = "TBD") ∧
      (mapLookup (buildIndexes sampleResponse.included).trackIndex r.stopId ≠ "" →
        sampleRow.track =
          mapLookup (buildIndexes sampleResponse.included).trackIndex r.stopId) ∧
      (sampleRow.track = "TBD" ↔
        (mapLookup (buildIndexes sampleResponse.included).trackIndex r.stopId = "" ∨
         mapLookup (buildIndexes sampleResponse.included).trackIndex r.stopId = "TBD")) :=
  track_resolution sampleResponse sampleRow (by decide)

/-- C9: every output row's status is copied verbatim from the source
record's raw status attribute, which the eligibility filter guarantees to
be non-empty, so no output row has an empty status. -/
theorem status_verbatim (resp : ApiV3Response) (d : Departure)
    (hd : d ∈ (ExtractDepartures resp).1) :
    d.status ≠ "" ∧ ∃ r ∈ resp.data, r.status ≠ "" ∧ d.status = r.status := by
  obtain ⟨r, hrm, helig, hmk⟩ := mem_rows resp d hd
  obtain ⟨_, h2, _⟩ := (eligible_iff _ r).mp helig
  have hst : d.status = r.status := by rw [hmk, mkDeparture_status]
  exact ⟨by rw [hst]; exact h2, r, hrm, h2, hst⟩

/-- Witness for C9 at a concrete input. -/
theorem status_verbatim_witness :
    sampleRow.status ≠ "" ∧
    ∃ r ∈ sampleResponse.data, r.status ≠ "" ∧ sampleRow.status = r.status :=
  status_verbatim sampleResponse sampleRow (by decide)

/-- C10: every output row's track field is non-empty - it is either the
sentinel `"TBD"` or the non-empty platform code looked up from the stop
index. -/
theorem track_nonempty (resp : ApiV3Response) (d : Departure)
    (hd : d ∈ (ExtractDepartures resp).1) :
    d.track ≠ "" ∧
      (d.track = "TBD" ∨
        ∃ r ∈ resp.data,
          d.track = mapLookup (buildIndexes resp.included).trackIndex r.stopId ∧
          d.track ≠ "") := by
  obtain ⟨r, hrm, _, hmk⟩ := mem_rows resp d hd
  have htr := mkDeparture_track (buildIndexes resp.included) r
  by_cases h : mapLookup (buildIndexes resp.included).trackIndex r.stopId = ""
  · rw [hmk, htr]
    simp [h]
  · have hd2 : d.track = mapLookup (buildIndexes resp.included).trackIndex r.stopId := by
      rw [hmk, htr]
      simp [h]
    exact ⟨by rw [hd2]; exact h, Or.inr ⟨r, hrm, hd2, by rw [hd2]; exact h⟩⟩

/-- Witness for C10 at a concrete input. -/
theorem track_nonempty_witness :
    sampleRow.track ≠ "" ∧
      (sampleRow.track = "TBD" ∨
        ∃ r ∈ sampleResponse.data,
          sampleRow.track =
            mapLookup (buildIndexes sampleResponse.included).trackIndex r.stopId ∧
          sampleRow.track ≠ "") :=
  track_nonempty sampleResponse sampleRow (by decide)

/-- C2: an eligible record whose timestamp fails to parse still yields
exactly one row at its position (one row per eligible record), that row's
time label is the deterministic rendering `(Parse Error) <raw timestamp>`,
the aggregate `ParseError` is returned (non-`nil`) and holds exactly one
error per failing eligible record, including this record's error, while
the full row sequence is still returned. -/
theorem parse_error_row (resp : ApiV3Response) (i : Nat) (r : DataRecord)
    (hr : (resp.data.filter (eligible (buildIndexes resp.included)))[i]? = some r)
    (hfail : timeParseRFC3339 r.departureTime = none) :
    ((ExtractDepartures resp).1.length =
      (resp.data.filter (eligible (buildIndexes resp.included))).length) ∧
    (((ExtractDepartures resp).1[i]?).map Departure.timeLabel =
      some ("(Parse Error) " ++ r.departureTime)) ∧
    (∃ pe : ParseError, (ExtractDepartures resp).2 = some pe ∧
      pe.errors.length =
        ((resp.data.filter (eligible (buildIndexes resp.included))).filter
          (fun q => (timeParseRFC3339 q.departureTime).isNone)).length ∧
      ("(Parse Error) " ++ r.departureTime) ∈ pe.errors) := by
  have hes : (resp.data.filter (eligible (buildIndexes resp.included))).filterMap
        (fun q => (mkDeparture (buildIndexes resp.included) q).2) =
      ((resp.data.filter (eligible (buildIndexes resp.included))).filter
        (fun q => (timeParseRFC3339 q.departureTime).isNone)).map
        (fun q => "(Parse Error) " ++ q.departureTime) := by
    rw [← filterMap_if_eq_map_filter]
    congr 1
    funext q
    rw [mkDeparture_snd]
    by_cases h : timeParseRFC3339 q.departureTime = none
    · simp [h]
    · simp [h, Option.isNone_iff_eq_none]
  refine ⟨?_, ?_, ?_⟩
  · rw [ExtractDepartures_fst, List.length_map]
  · rw [ExtractDepartures_fst, List.getElem?_map, hr]
    simp [mkDeparture_timeLabel_of_fail _ _ hfail]
  · have hmem : r ∈ (resp.data.filter (eligible (buildIndexes resp.included))).filter
        (fun q => (timeParseRFC3339 q.departureTime).isNone) := by
      refine List.mem_filter.mpr ⟨List.getElem?_mem hr, ?_⟩
      simp [hfail]
    have hmsg : ("(Parse Error) " ++ r.departureTime) ∈
        (resp.data.filter (eligible (buildIndexes resp.included))).filterMap
          (fun q => (mkDeparture (buildIndexes resp.included) q).2) := by
      rw [hes]
      exact List.mem_map_of_mem _ hmem
    have hlen : 0 < ((resp.data.filter (eligible (buildIndexes resp.included))).filterMap
        (fun q => (mkDeparture (buildIndexes resp.included) q).2)).length :=
      List.length_pos.mpr (List.ne_nil_of_mem hmsg)
    refine ⟨⟨(resp.data.filter (eligible (buildIndexes resp.included))).filterMap
        (fun q => (mkDeparture (buildIndexes resp.included) q).2)⟩, ?_, ?_, hmsg⟩
    · rw [ExtractDepartures_snd]
      simp [hlen]
    · simp [hes]

/-- An otherwise-eligible record whose timestamp is not ISO-8601. -/
def badTimeRecord : DataRecord :=
  ⟨"bogus", "On time", "CR-Newburyport", "S1", "T1", "p5"⟩

/-- A payload holding the unparsable-timestamp record. -/
def badTimeResponse : ApiV3Response :=
  ⟨[badTimeRecord], [crRoute, tripNewburyport, stopNoTrack]⟩

/-- Witness for C2 at a concrete input. -/
theorem parse_error_row_witness :
    ((ExtractDepartures badTimeResponse).1.length =
      (badTimeResponse.data.filter
        (eligible (buildIndexes badTimeResponse.included))).length) ∧
    (((ExtractDepartures badTimeResponse).1[0]?).map Departure.timeLabel =
      some ("(Parse Error) " ++ badTimeRecord.departureTime)) ∧
    (∃ pe : ParseError, (ExtractDepartures badTimeResponse).2 = some pe ∧
      pe.errors.length =
        ((badTimeResponse.data.filter
          (eligible (buildIndexes badTimeResponse.included))).filter
          (fun q => (timeParseRFC3339 q.departureTime).isNone)).length ∧
      ("(Parse Error) " ++ badTimeRecord.departureTime) ∈ pe.errors) :=
  parse_error_row badTimeResponse 0 badTimeRecord (by decide) (by decide)

/-- C3: with the transport reporting success, an upstream envelope holding
at least one error entry makes `ListDepartures` return `nil` rows and the
envelope as the error; a single-entry envelope's message is exactly
`MBTA API error: <detail>`, and a multi-entry envelope's message renders
the raw entry collection. -/
theorem api_error_precedence (resp : ApiV3Response) (e : ApiV3Error)
    (h : 1 ≤ e.errors.length) :
    (ListDepartures none resp e).1 = none ∧
    (ListDepartures none resp e).2 = some (GoError.api e) ∧
    (∀ entry : ApiV3ErrorEntry, e.errors = [entry] →
      (GoError.api e).message = "MBTA API error: " ++ entry.detail) ∧
    (2 ≤ e.errors.length →
      (GoError.api e).message = "MBTA API error: " ++ plusVEntries e.errors) := by
  have hne : ¬ e.errors.length = 0 := by omega
  refine ⟨?_, ?_, ?_, ?_⟩
  · simp [ListDepartures, hne]
  · simp [ListDepartures, hne]
  · intro entry he
    simp [GoError.message, ApiV3Error.message, he]
  · intro h2
    obtain ⟨errs⟩ := e
    cases errs with
    | nil => simp at h2
    | cons x t =>
      cases t with
      | nil => simp at h2
      | cons y rest => simp [GoError.message, ApiV3Error.message]

/-- The rate-limit envelope from the repository's own test fixture. -/
def rateLimitError : ApiV3Error :=
  ⟨[⟨"429", "", "You have exceeded your allowed usage rate.", "rate_limited"⟩]⟩

/-- Witness for C3 at the rate-limit fixture. -/
theorem api_error_precedence_witness :
    (ListDepartures none sampleResponse rateLimitError).1 = none ∧
    (ListDepartures none sampleResponse rateLimitError).2 =
      some (GoError.api rateLimitError) ∧
    (GoError.api rateLimitError).message =
      "MBTA API error: You have exceeded your allowed usage rate." := by
  obtain ⟨h1, h2, h3, _⟩ :=
    api_error_precedence sampleResponse rateLimitError (by decide)
  exact ⟨h1, h2, h3 ⟨"429", "", "You have exceeded your allowed usage rate.", "rate_limited"⟩ rfl⟩

/-- C6: in its single pass the Index Builder puts a route id in the
commuter-rail set exactly when some `route` entity with that id has
numeric type `2`; it maps every `stop` entity's id to a `stop` entity's
platform code (possibly empty) and every `trip` entity's id to a `trip`
entity's headsign (the lookups are fully characterized by the last
matching entity); and an included entity of any other kind leaves the
indexes unchanged - no error is possible. -/
theorem buildIndexes_spec (included : List IncludedEntity) :
    (∀ r : String, ((buildIndexes included).routeIndex.contains r = true ↔
        ∃ e ∈ included, e.type = "route" ∧ e.routeType = 2 ∧ e.id = r)) ∧
    (∀ s : String, mapLookup (buildIndexes included).trackIndex s =
        (lastStopPlatform included s).getD "") ∧
    (∀ s : String, mapLookup (buildIndexes included).destinationIndex s =
        (lastTripHeadsign included s).getD "") ∧
    (∀ e ∈ included, e.type = "stop" →
        ∃ e2 ∈ included, e2.type = "stop" ∧ e2.id = e.id ∧
          mapLookup (buildIndexes included).trackIndex e.id = e2.platformCode) ∧
    (∀ e ∈ included, e.type = "trip" →
        ∃ e2 ∈ included, e2.type = "trip" ∧ e2.id = e.id ∧
          mapLookup (buildIndexes included).destinationIndex e.id = e2.headsign) ∧
    (∀ (pre post : List IncludedEntity) (e : IncludedEntity),
        e.type ≠ "route" → e.type ≠ "stop" → e.type ≠ "trip" →
        buildIndexes (pre ++ e :: post) = buildIndexes (pre ++ post)) := by
  have htrack : ∀ s, mapLookup (buildIndexes included).trackIndex s =
      (lastStopPlatform included s).getD "" := by
    intro s
    have h := trackIndex_foldl included ⟨[], [], []⟩ s
    simpa [buildIndexes, mapLookup] using h
  have hdest : ∀ s, mapLookup (buildIndexes included).destinationIndex s =
      (lastTripHeadsign included s).getD "" := by
    intro s
    have h := destinationIndex_foldl included ⟨[], [], []⟩ s
    simpa [buildIndexes, mapLookup] using h
  refine ⟨?_, htrack, hdest, ?_, ?_, ?_⟩
  · intro r
    have h := routeIndex_foldl included ⟨[], [], []⟩ r
    simpa [buildIndexes] using h
  · intro e he hstop
    have hp : (e.type == "stop" && e.id == e.id) = true := by simp [hstop]
    have hsome : (included.reverse.find?
        (fun e2 => e2.type == "stop" && e2.id == e.id)).isSome = true := by
      rw [List.find?_isSome]
      exact ⟨e, List.mem_reverse.mpr he, hp⟩
    obtain ⟨e2, he2⟩ := Option.isSome_iff_exists.mp hsome
    have he2p := List.find?_some he2
    simp only [Bool.and_eq_true, beq_iff_eq] at he2p
    refine ⟨e2, List.mem_reverse.mp (List.mem_of_find?_eq_some he2),
      he2p.1, he2p.2, ?_⟩
    rw [htrack]
    unfold lastStopPlatform
    rw [he2]
    rfl
  · intro e he htrip
    have hp : (e.type == "trip" && e.id == e.id) = true := by simp [htrip]
    have hsome : (included.reverse.find?
        (fun e2 => e2.type == "trip" && e2.id == e.id)).isSome = true := by
      rw [List.find?_isSome]
      exact ⟨e, List.mem_reverse.mpr he, hp⟩
    obtain ⟨e2, he2⟩ := Option.isSome_iff_exists.mp hsome
    have he2p := List.find?_some he2
    simp only [Bool.and_eq_true, beq_iff_eq] at he2p
    refine ⟨e2, List.mem_reverse.mp (List.mem_of_find?_eq_some he2),
      he2p.1, he2p.2, ?_⟩
    rw [hdest]
    unfold lastTripHeadsign
    rw [he2]
    rfl
  · intro pre post e h1 h2 h3
    unfold buildIndexes
    rw [List.foldl_append, List.foldl_append, List.foldl_cons,
      indexStep_other _ _ h1 h2 h3]

/-- Witness for C6 at concrete inputs, including an ignored `schedule`
entity. -/
theorem buildIndexes_spec_witness :
    ((buildIndexes sampleResponse.included).routeIndex.contains
      "CR-Newburyport" = true) ∧
    (∃ e2 ∈ sampleResponse.included, e2.type = "stop" ∧ e2.id = stopNoTrack.id ∧
      mapLookup (buildIndexes sampleResponse.included).trackIndex stopNoTrack.id =
        e2.platformCode) ∧
    buildIndexes [⟨"h", "p", 2, "schedule", "x"⟩] = buildIndexes [] := by
  obtain ⟨h1, h2, h3, h4, h5, h6⟩ := buildIndexes_spec sampleResponse.included
  refine ⟨?_, ?_, ?_⟩
  · exact (h1 "CR-Newburyport").mpr ⟨crRoute, by decide, rfl, rfl, rfl⟩
  · exact h4 stopNoTrack (by decide) rfl
  · simpa using h6 [] [] ⟨"h", "p", 2, "schedule", "x"⟩
      (by decide) (by decide) (by decide)
